import Mathlib

/-!
Verification of the beam wallet transaction engine and stratum mining server
against their natural-language specification.

The development shallowly embeds the code of `src/wallet/wallet_transaction.cpp`
and `src/pow/stratum_server.cpp`.  Machine integers (`Amount`, `Height`,
`uint64_t`) are modelled as `Nat` with explicit reduction modulo `2 ^ 64` at the
operations where C++ unsigned arithmetic may wrap.  Fallible steps
(`TransactionFailedException` and generic exceptions) are modelled by an
explicit error component threaded through the step functions.  Store
operations (`save`, `rollbackTx`) and defaulted arguments whose code lives
outside `src/` are modelled from the specification; each such definition says
so in its documentation comment.
-/

set_option autoImplicit false

namespace Beam

/-- `2 ^ 64`, the modulus of C++ `uint64_t` arithmetic (`Amount`, `Height`). -/
def M64 : Nat := 2 ^ 64

/-- Addition of two `uint64_t` values (wraps modulo `2 ^ 64`). -/
def add64 (a b : Nat) : Nat := (a + b) % M64

/-- Subtraction of two `uint64_t` values already reduced below `2 ^ 64`
(wraps modulo `2 ^ 64`). -/
def sub64 (a b : Nat) : Nat := (a + M64 - b % M64) % M64

/-- `std::accumulate(begin, end, 0ULL)` over a list of `uint64_t` values. -/
def sum64 (l : List Nat) : Nat := l.foldl add64 0

/-- The C++ constant `MaxHeight` (the largest `uint64_t`). -/
def maxHeightCap : Nat := M64 - 1

end Beam

namespace Beam.Stratum

/-! ## Stratum server (`src/pow/stratum_server.cpp`)

The server's observable behaviour is modelled as a state record plus a list of
emitted events (frames written to peers, invocations of the `onFound`
callback).  Callbacks are identified by an opaque `Nat` tag so that distinct
jobs can carry distinct callbacks. -/

/-- The `Solution{id, nonce, output}` message body parsed from a peer. -/
structure Solution where
  id : String
  nonce : String
  output : String
deriving DecidableEq, Repr

/-- The proof-of-work bytes reconstructed by `Solution::fill_pow`
(nonce and indices decoded from the hex fields). -/
structure Pow where
  nonce : String
  output : String
deriving DecidableEq, Repr

/-- `Solution::fill_pow`: decode the nonce and output hex into PoW bytes. -/
def fillPow (sol : Solution) : Pow := ⟨sol.nonce, sol.output⟩

/-- The server's `_recentResult`: id, pow bytes, delivering peer and the
`onBlockFound` callback installed by the most recent `new_job`. -/
structure RecentResult where
  id : String := ""
  pow : Pow := ⟨"", ""⟩
  resultFrom : Nat := 0
  onBlockFound : Nat := 0
deriving DecidableEq, Repr

/-- Observable events emitted by the server: frames written to peers and
invocations of the job callback. -/
inductive SEvent
  | sendJob (peer : Nat) (jobMsg : String)
  | sendLoginFailed (peer : Nat)
  | sendRejected (peer : Nat) (jobId : String)
  | sendAccepted (peer : Nat) (jobId : String) (blockHash : String) (blockHeight : Nat)
  | onFound (callback : Nat) (pow : Pow)
deriving DecidableEq, Repr

/-- The access-control list (`Server::AccessControl`): enabled flag, key set
and the `mtime` of the last reload. -/
structure AccessControl where
  enabled : Bool
  lastModified : Nat
  keys : List String
deriving DecidableEq, Repr

/-- `boost::algorithm::trim`: strip leading and trailing whitespace. -/
def trim (s : String) : String :=
  ⟨((s.data.dropWhile Char.isWhitespace).reverse.dropWhile Char.isWhitespace).reverse⟩

/-- `Server::AccessControl::refresh`.  The file system is abstracted as
`Option (Nat × List String)`: `none` when reading the file throws (the
`catch` branch leaves the state unchanged), otherwise the `mtime` and the
lines of the key file.  Keys are the trimmed lines of at least 8
characters; the set is reloaded only when the `mtime` increased. -/
def AccessControl.refresh (file : Option (Nat × List String)) (acl : AccessControl) :
    AccessControl :=
  if !acl.enabled then acl
  else
    match file with
    | none => acl
    | some (t, lines) =>
      if t ≤ acl.lastModified then acl
      else
        { acl with lastModified := t,
                   keys := (lines.map trim).filter (fun l => 8 ≤ l.length) }

/-- The `AccessControl` constructor: enabled iff the configured key-file name
is non-empty, followed by an initial `refresh`. -/
def AccessControl.init (keysFileName : String) (file : Option (Nat × List String)) :
    AccessControl :=
  AccessControl.refresh file { enabled := keysFileName ≠ "", lastModified := 0, keys := [] }

/-- `Server::AccessControl::check`: accept everything when disabled, otherwise
test membership in the key set. -/
def AccessControl.check (acl : AccessControl) (key : String) : Bool :=
  if !acl.enabled then true else decide (key ∈ acl.keys)

/-- The server state: the connection map (peer address, logged-in flag, in
accept order), the cached most recent job, the most recent result and the
event trace. -/
structure ServerState where
  connections : List (Nat × Bool) := []
  recentJobId : String := ""
  recentJobMsg : String := ""
  recentResult : RecentResult := {}
  acl : AccessControl := { enabled := false, lastModified := 0, keys := [] }
  events : List SEvent := []
deriving DecidableEq, Repr

def ServerState.pushEvent (s : ServerState) (e : SEvent) : ServerState :=
  { s with events := s.events ++ [e] }

/-- Look up a connection's logged-in flag by peer address. -/
def lookupConn (s : ServerState) (peer : Nat) : Option Bool :=
  (s.connections.find? (fun p => p.1 = peer)).map (·.2)

/-- `Connection::set_logged_in` on the given peer. -/
def setLoggedIn (s : ServerState) (peer : Nat) : ServerState :=
  { s with connections := s.connections.map (fun p => if p.1 = peer then (p.1, true) else p) }

/-- `Server::on_login`: check the key against the ACL; on success mark the
peer logged in and send it the cached recent job frame; on failure reply
`login_failed` (and shut the stream down). -/
def onLogin (s : ServerState) (peer : Nat) (apiKey : String) : ServerState :=
  if s.acl.check apiKey then
    let s1 := setLoggedIn s peer
    s1.pushEvent (.sendJob peer s1.recentJobMsg)
  else
    s.pushEvent (.sendLoginFailed peer)

/-- `Server::on_solution`: overwrite the most recent result (id, pow bytes,
delivering peer) and invoke the stored `onBlockFound` callback.  The job id
carried by the solution is not compared against the current job. -/
def onSolution (s : ServerState) (peer : Nat) (sol : Solution) : ServerState :=
  let s1 := { s with recentResult :=
    { id := sol.id, pow := fillPow sol, resultFrom := peer,
      onBlockFound := s.recentResult.onBlockFound } }
  s1.pushEvent (.onFound s1.recentResult.onBlockFound (fillPow sol))

/-- `Server::new_job`: cache the job id and its serialized frame, install the
callback into `_recentResult`, and send the frame to every logged-in peer in
connection order. -/
def newJob (s : ServerState) (id : String) (callback : Nat) : ServerState :=
  let s1 := { s with recentJobId := id, recentJobMsg := id,
                     recentResult := { s.recentResult with onBlockFound := callback } }
  s1.connections.foldl
    (fun st p => if p.2 then st.pushEvent (.sendJob p.1 st.recentJobMsg) else st) s1

/-- `Server::solution_result`: serialize a `Result` (rejected) or
`SolutionResult` (accepted) frame and write it to the peer recorded in
`_recentResult.resultFrom`, only if that peer is still connected and logged
in (`send_msg` with `onlyIfLoggedIn = true`; a vanished peer is undefined
behaviour in the C++ `operator[]` and is modelled as no event). -/
def solutionResult (s : ServerState) (jobId : String) (accepted : Bool)
    (blockHash : String) (blockHeight : Nat) : ServerState :=
  let dest := s.recentResult.resultFrom
  match lookupConn s dest with
  | some true =>
    if accepted then s.pushEvent (.sendAccepted dest jobId blockHash blockHeight)
    else s.pushEvent (.sendRejected dest jobId)
  | _ => s

/-- `Server::stop_current`: clear the active job id. -/
def stopCurrent (s : ServerState) : ServerState := { s with recentJobId := "" }

/-- Inbound messages after JSON parsing, as dispatched to
`Server::Connection::on_message`; unknown or unsupported methods reach
`on_unsupported_stratum_method`. -/
inductive InMsg
  | login (apiKey : String)
  | solution (sol : Solution)
  | unsupported
deriving DecidableEq, Repr

/-- `Server::Connection::on_message` dispatch: `Login` goes to `on_login`,
`Solution` goes to `on_solution` (with no logged-in check), anything else is
logged and ignored. -/
def connOnMessage (s : ServerState) (peer : Nat) (m : InMsg) : ServerState :=
  match m with
  | .login k => onLogin s peer k
  | .solution sol => onSolution s peer sol
  | .unsupported => s

/-- Recognizer for `onFound` events in a trace. -/
def isOnFound : SEvent → Bool
  | .onFound _ _ => true
  | _ => false

end Beam.Stratum

namespace Beam.Wallet

/-! ## Wallet negotiation engine (`src/wallet/wallet_transaction.cpp`)

Transaction ids, wallet ids and key ids are opaque and modelled as `Nat`.
Cryptographic blobs stored in the parameter bag (`Offset`, `BlindingExcess`,
nonces, signatures, commitments) influence the claims only through their
presence, so they are modelled as `Option Unit`; the outcomes of the three
cryptographic validity checks are oracle booleans supplied by the
environment. -/

/-- `Coin::Status` (`src/wallet/wallet_db.h`). -/
inductive CoinStatus
  | Unavailable
  | Available
  | Maturing
  | Outgoing
  | Incoming
  | ChangeV0
  | Spent
deriving DecidableEq, Repr

/-- A stored coin (`struct Coin`, `src/wallet/wallet_db.h`).  The key identity
`m_ID` is collapsed to the index `id` plus the value and a change-key flag. -/
structure Coin where
  id : Nat
  value : Nat
  status : CoinStatus
  createHeight : Nat := 0
  maturity : Nat := maxHeightCap
  confirmHeight : Nat := maxHeightCap
  lockedHeight : Nat := maxHeightCap
  createTxId : Option Nat := none
  spentTxId : Option Nat := none
  isChangeKey : Bool := false
deriving DecidableEq, Repr

/-- `TxStatus` (user-visible transaction status). -/
inductive TxStatus
  | Pending
  | InProgress
  | Cancelled
  | Completed
  | Failed
  | Registered
deriving DecidableEq, Repr

/-- `SimpleTransaction::State` (persisted negotiation state). -/
inductive TxState
  | Initial
  | Invitation
  | InvitationConfirmation
  | PeerConfirmation
  | KernelConfirmation
  | Registration
deriving DecidableEq, Repr

/-- `TxFailureReason`. -/
inductive TxFailureReason
  | NoInputs
  | InvalidPeerSignature
  | InvalidTransaction
  | FailedToRegister
  | FailedToSendParameters
  | TransactionExpired
  | Cancelled
  | Unknown
deriving DecidableEq, Repr

/-- The per-transaction parameter bag.  Each field is the typed content of one
`TxParameterID` row; `none` means the row is absent.  Opaque cryptographic
blobs are `Option Unit` (only their presence is observable). -/
structure ParamBag where
  status : Option TxStatus := none
  state : Option TxState := none
  isSender : Option Bool := none
  isInitiator : Option Bool := none
  amount : Option Nat := none
  amountList : Option (List Nat) := none
  fee : Option Nat := none
  minHeight : Option Nat := none
  maxHeight : Option Nat := none
  failureReason : Option TxFailureReason := none
  transactionRegistered : Option Bool := none
  kernelProofHeight : Option Nat := none
  peerProtoVersion : Option Nat := none
  myID : Option Nat := none
  peerID : Option Nat := none
  myAddressID : Option Nat := none
  change : Option Nat := none
  inputs : Option Nat := none
  outputs : Option Nat := none
  offset : Option Unit := none
  blindingExcess : Option Unit := none
  myNonce : Option Unit := none
  kernelID : Option Unit := none
  peerPublicExcess : Option Unit := none
  peerPublicNonce : Option Unit := none
  peerSignature : Option Unit := none
  peerInputs : Option Unit := none
  peerOutputs : Option Unit := none
  peerOffset : Option Unit := none
  paymentConfirmation : Option Unit := none
  modifyTime : Option Nat := none
deriving DecidableEq, Repr

/-- The outbound peer messages assembled by the transaction (the
`SetTxParameter` frames), identified by which sending routine built them. -/
inductive OutMsg
  | invitation
  | confirmInvitation
  | confirmTransaction
  | registered
  | failure (reason : TxFailureReason)
deriving DecidableEq, Repr

/-- Observable interactions of the transaction with the gateway and the
store's transaction-level operations. -/
inductive Event
  | sendTxParams (peer : Nat) (msg : OutMsg)
  | registerTx
  | confirmKernel
  | onTxCompleted
  | rollbackTx
deriving DecidableEq, Repr

/-- The persistent state visible to one transaction: its parameter bag, the
coin table, the next fresh key index (`AllocateKidRange`), whether
`deleteTx` removed the record, and the trace of gateway/store events. -/
structure WState where
  bag : ParamBag := {}
  coins : List Coin := []
  nextKid : Nat := 0
  txDeleted : Bool := false
  events : List Event := []
deriving DecidableEq, Repr

/-- Ambient inputs of one `Update()` call: the transaction id, the results of
the store and address-book queries and of the cryptographic checks, the
chain tip and the store's coin selection for this call. -/
structure Env where
  txId : Nat := 0
  isSelfTx : Bool := false
  myAddrOwnID : Option Nat := none
  peerSigValid : Bool := true
  paymentConfValid : Bool := true
  txValid : Bool := true
  tip : Option Nat := none
  selectedCoins : List Coin := []
  now : Nat := 0
  maturityStd : Nat := 0
deriving DecidableEq, Repr

/-- Exceptions escaping `UpdateImpl`: a `TransactionFailedException` carrying
its reason and notify flag, or any other exception. -/
inductive TxError
  | txFailed (reason : TxFailureReason) (notify : Bool)
  | other
deriving DecidableEq, Repr

/-- `GetMandatoryParameter` (declared in the header, which is outside `src/`)
throws a `TransactionFailedException` when the row is absent; the reason is
modelled as `Unknown`, the spec's catch-all negotiation failure. -/
def mandatoryParamError : TxError := .txFailed .Unknown true

def WState.pushEvent (s : WState) (e : Event) : WState :=
  { s with events := s.events ++ [e] }

/-- `save(coin)` of the store (implemented outside `src/`).  Modelled from the
spec: keyed persistence — the stored row with the same identity is
overwritten. -/
def saveCoin (c : Coin) (db : List Coin) : List Coin :=
  db.map (fun d => if d.id = c.id then c else d)

/-- `save(std::vector<Coin>)`: persist each coin in order. -/
def saveCoins (cs : List Coin) (db : List Coin) : List Coin :=
  cs.foldl (fun db c => saveCoin c db) db

/-- `IWalletDB::rollbackTx` (implemented outside `src/`).  Modelled from the
spec: undo the coin-state changes of one transaction — own outputs
(`Incoming` created by it) are removed, own inputs (`Outgoing` spent by it)
return to `Available` with the spending mark cleared. -/
def rollbackCoins (txId : Nat) (db : List Coin) : List Coin :=
  (db.filter (fun c => !(c.createTxId = some txId ∧ c.status = .Incoming))).map
    (fun c =>
      if c.spentTxId = some txId ∧ c.status = .Outgoing then
        { c with status := .Available, spentTxId := none }
      else c)

/-- `BaseTransaction::RollbackTx`: delegate to the store. -/
def rollbackTx (env : Env) (s : WState) : WState :=
  (WState.pushEvent { s with coins := rollbackCoins env.txId s.coins } .rollbackTx)

/-- `BaseTransaction::SendTxParameters`: stamp the message with the ids and
send it via the gateway when both `MyID` and `PeerID` are present; report
whether it was sent. -/
def sendTxParameters (msg : OutMsg) (s : WState) : WState × Bool :=
  match s.bag.myID, s.bag.peerID with
  | some _, some peer => (s.pushEvent (.sendTxParams peer msg), true)
  | _, _ => (s, false)

/-- `BaseTransaction::NotifyFailure`: send a `FailureReason` message only when
the persisted status (defaulting to `Failed` when the row is absent) is
`Pending` or `InProgress`. -/
def notifyFailure (reason : TxFailureReason) (s : WState) : WState :=
  match s.bag.status.getD .Failed with
  | .Pending => (sendTxParameters (.failure reason) s).1
  | .InProgress => (sendTxParameters (.failure reason) s).1
  | _ => s

/-- `BaseTransaction::UpdateTxDescription`: persist the new status and the
modification timestamp. -/
def updateTxDescription (env : Env) (st : TxStatus) (s : WState) : WState :=
  { s with bag := { s.bag with status := some st, modifyTime := some env.now } }

/-- `BaseTransaction::OnFailed`: optionally notify the peer, set the status
(`Cancelled` for reason `Cancelled`, otherwise `Failed`), roll back the coin
state and signal completion to the gateway. -/
def onFailed (env : Env) (reason : TxFailureReason) (notify : Bool) (s : WState) : WState :=
  let s1 := if notify then notifyFailure reason s else s
  let s2 := updateTxDescription env
    (if reason = .Cancelled then .Cancelled else .Failed) s1
  (rollbackTx env s2).pushEvent .onTxCompleted

/-- The default of `OnFailed`'s `notify` argument lives in the header (outside
`src/`).  Modelled from the spec: peer-originated failures and expiry
consume the reason without outbound notification, so the default is
`false`. -/
def onFailedDefaultNotify : Bool := false

/-- `BaseTransaction::CheckExternalFailures`: when the bag holds a
`FailureReason` and the status is `InProgress`, fail locally with that
reason (no outbound notification) and report that the update is handled. -/
def checkExternalFailures (env : Env) (s : WState) : WState × Bool × Option TxError :=
  match s.bag.failureReason with
  | none => (s, false, none)
  | some reason =>
    match s.bag.status with
    | none => (s, false, some mandatoryParamError)
    | some st =>
      if st = .InProgress then (onFailed env reason onFailedDefaultNotify s, true, none)
      else (s, false, none)

/-- `BaseTransaction::CheckExpired`: unless the status is `Completed`, fail
with `TransactionExpired` when the chain tip is beyond the `MaxHeight`
parameter (defaulting to the maximal height). -/
def checkExpired (env : Env) (s : WState) : WState × Option TxError :=
  match s.bag.status with
  | none => (s, some mandatoryParamError)
  | some st =>
    if st = .Completed then (s, none)
    else
      match env.tip with
      | none => (s, none)
      | some h =>
        if s.bag.maxHeight.getD maxHeightCap < h then
          (onFailed env .TransactionExpired onFailedDefaultNotify s, none)
        else (s, none)

/-- `BaseTransaction::ConfirmKernel`: set status `Registered` and request the
kernel proof from the gateway. -/
def confirmKernel (env : Env) (s : WState) : WState :=
  (updateTxDescription env .Registered s).pushEvent .confirmKernel

/-- `BaseTransaction::CompleteTx`: set status `Completed` and signal
completion to the gateway. -/
def completeTx (env : Env) (s : WState) : WState :=
  (updateTxDescription env .Completed s).pushEvent .onTxCompleted

/-- `BaseTransaction::Cancel`: delete a still-`Pending` transaction outright;
otherwise notify the peer, set status `Cancelled`, roll back the coins and
signal completion. -/
def cancel (env : Env) (s : WState) : WState :=
  match s.bag.status.getD .Failed with
  | .Pending => { s with txDeleted := true }
  | _ =>
    let s1 := notifyFailure .Cancelled s
    let s2 := updateTxDescription env .Cancelled s1
    (rollbackTx env s2).pushEvent .onTxCompleted

/-- `SimpleTransaction::SetState` (header, outside `src/`): persist the
negotiation state parameter. -/
def setState (st : TxState) (s : WState) : WState :=
  { s with bag := { s.bag with state := some st } }

/-- The working state of `TxBuilder` that is observable through the claims:
the amount list and fee it was constructed with, the accumulated change and
the heights loaded from the bag, and the sizes of its input/output
vectors.  Scalars and commitments are opaque. -/
structure TxBuilder where
  amountList : List Nat
  fee : Nat
  change : Nat := 0
  minHeight : Nat := 0
  maxHeight : Nat := maxHeightCap
  inputs : Nat := 0
  outputs : Nat := 0
deriving DecidableEq, Repr

/-- `TxBuilder::GetAmount`: `std::accumulate` of the amount list. -/
def TxBuilder.getAmount (b : TxBuilder) : Nat := sum64 b.amountList

/-- `TxBuilder::SelectInputs`: ask the store for coins covering
`amount + fee`; throw `NoInputs` when the selection is empty (notification
iff not the initiator); otherwise mark every selected coin as spent by this
transaction, record change, inputs and offset in the bag, and persist the
marked coins. -/
def selectInputs (env : Env) (b : TxBuilder) (s : WState) :
    TxBuilder × WState × Option TxError :=
  let amountWithFee := add64 b.getAmount b.fee
  if env.selectedCoins.isEmpty then
    match s.bag.isInitiator with
    | none => (b, s, some mandatoryParamError)
    | some ini => (b, s, some (.txFailed .NoInputs (!ini)))
  else
    let marked := env.selectedCoins.map (fun c => { c with spentTxId := some env.txId })
    let total := sum64 (marked.map (·.value))
    let change := add64 b.change (sub64 total amountWithFee)
    let b1 := { b with change := change, inputs := b.inputs + marked.length }
    let s1 := { s with
      bag := { s.bag with change := some change,
                          inputs := some b1.inputs, offset := some () },
      coins := saveCoins marked s.coins }
    (b1, s1, none)

/-- `TxBuilder::CreateOutput`: persist a fresh `Incoming` coin created by this
transaction (key id minted from the monotonic range allocator, type
`Change` for change outputs) and extend the builder's output vector. -/
def createOutput (env : Env) (amount : Nat) (bChange : Bool) (b : TxBuilder)
    (s : WState) : TxBuilder × WState :=
  let newUtxo : Coin :=
    { id := s.nextKid, value := amount, status := .Incoming,
      createHeight := b.minHeight, createTxId := some env.txId,
      isChangeKey := bChange }
  ({ b with outputs := b.outputs + 1 },
   { s with coins := s.coins ++ [newUtxo], nextKid := s.nextKid + 1 })

/-- `TxBuilder::AddOutput`. -/
def addOutput (env : Env) (amount : Nat) (bChange : Bool) (b : TxBuilder)
    (s : WState) : TxBuilder × WState :=
  createOutput env amount bChange b s

/-- `TxBuilder::AddChangeOutput`: add a change output unless the change is
zero. -/
def addChangeOutput (env : Env) (b : TxBuilder) (s : WState) : TxBuilder × WState :=
  if b.change = 0 then (b, s) else addOutput env b.change true b s

/-- The receiver-side loop of `UpdateImpl`: one `AddOutput` per amount of the
amount list. -/
def addOutputsList (env : Env) (amts : List Nat) (b : TxBuilder) (s : WState) :
    TxBuilder × WState :=
  amts.foldl (fun p a => addOutput env a false p.1 p.2) (b, s)

/-- `TxBuilder::FinalizeOutputs`: flush the output vector and the offset into
the bag. -/
def finalizeOutputs (b : TxBuilder) (s : WState) : WState :=
  { s with bag := { s.bag with outputs := some b.outputs, offset := some () } }

/-- `TxBuilder::CreateKernel`: derive the blinding excess from a freshly
allocated key id when the bag does not hold one yet, and store the random
nonce seed once. -/
def createKernel (s : WState) : WState :=
  let s1 :=
    if s.bag.blindingExcess.isSome then s
    else { s with nextKid := s.nextKid + 1,
                  bag := { s.bag with blindingExcess := some () } }
  if s1.bag.myNonce.isSome then s1
  else { s1 with bag := { s1.bag with myNonce := some () } }

/-- `TxBuilder::SignPartial` ends in `StoreKernelID`: the kernel id becomes a
bag parameter. -/
def signPartial (s : WState) : WState :=
  { s with bag := { s.bag with kernelID := some () } }

/-- `TxBuilder::FinalizeSignature` also ends in `StoreKernelID`. -/
def finalizeSignature (s : WState) : WState :=
  { s with bag := { s.bag with kernelID := some () } }

/-- `BaseTransaction::GetUnconfirmedOutputs`: the coins created by this
transaction still `Incoming`, plus the coins spent by it still
`Outgoing`. -/
def getUnconfirmedOutputs (txId : Nat) (db : List Coin) : List Coin :=
  db.filter (fun c =>
    (c.createTxId = some txId ∧ c.status = .Incoming)
    ∨ (c.spentTxId = some txId ∧ c.status = .Outgoing))

/-- The kernel-proof promotion of `UpdateImpl`: an `Outgoing` coin becomes
`Spent`; any other (an `Incoming` one) becomes `Available` with the proof
height as confirmation height and maturity one standard window later. -/
def confirmCoin (hProof mStd : Nat) (c : Coin) : Coin :=
  if c.status = .Outgoing then { c with status := .Spent }
  else { c with status := .Available, confirmHeight := hProof,
                maturity := add64 hProof mStd }

/-- `SimpleTransaction::SendInvitation`: send the invitation frame; when the
ids needed to address it are missing, fail with `FailedToSendParameters`
without notifying. -/
def sendInvitation (env : Env) (s : WState) : WState :=
  match sendTxParameters .invitation s with
  | (s1, true) => s1
  | (s1, false) => onFailed env .FailedToSendParameters false s1

/-- `SimpleTransaction::ConfirmInvitation`: send the confirmation frame (its
payment-confirmation signature only enriches the message). -/
def confirmInvitation (s : WState) : WState :=
  (sendTxParameters .confirmInvitation s).1

/-- `SimpleTransaction::ConfirmTransaction`: skipped entirely for peers with
the new protocol version; otherwise send the confirmation frame. -/
def confirmTransaction (s : WState) : WState :=
  if s.bag.peerProtoVersion.isSome then s
  else (sendTxParameters .confirmTransaction s).1

/-- `SimpleTransaction::NotifyTransactionRegistered`: tell an old peer the
transaction is registered. -/
def notifyTransactionRegistered (s : WState) : WState :=
  (sendTxParameters .registered s).1

/-- The `MyAddressID` resolution block of `UpdateImpl`: when the bag has no
`MyAddressID` but `MyID` resolves to an own address, persist that address's
own id. -/
def resolveMyAddressID (env : Env) (s : WState) : WState :=
  if s.bag.myAddressID.isSome then s
  else
    match s.bag.myID with
    | none => s
    | some _ =>
      match env.myAddrOwnID with
      | some n =>
        if n ≠ 0 then { s with bag := { s.bag with myAddressID := some n } } else s
      | none => s

/-- The initial block of `UpdateImpl` (no initial parameters yet and state
`Initial`): the sender selects inputs and adds change, the receiver or a
self-transaction adds the receiver outputs, then outputs are finalized and
the status becomes `InProgress`. -/
def initialPhase (env : Env) (isSender isSelfTx : Bool) (txState : TxState)
    (hasInitial : Bool) (b : TxBuilder) (s : WState) :
    TxBuilder × WState × Option TxError :=
  if !hasInitial && txState = .Initial then
    match (if isSender then
             match selectInputs env b s with
             | (b1, s1, some e) => (b1, s1, some e)
             | (b1, s1, none) =>
               let p := addChangeOutput env b1 s1
               (p.1, p.2, none)
           else (b, s, none)) with
    | (b1, s1, some e) => (b1, s1, some e)
    | (b1, s1, none) =>
      let p :=
        if isSelfTx || !isSender then addOutputsList env b1.amountList b1 s1
        else (b1, s1)
      (p.1, updateTxDescription env .InProgress (finalizeOutputs p.1 p.2), none)
  else (b, s, none)

/-- The tail of `UpdateImpl` from the peer-signature validity check down to
completion (lines 388-501): payment acknowledgement, finalization,
registration, kernel confirmation and the promotion of unconfirmed
coins. -/
def updateImplTail (env : Env) (isSender isSelfTx : Bool) (txState : TxState)
    (hasPeersIo : Bool) (s : WState) : WState × Option TxError :=
  match s.bag.isInitiator with
  | none => (s, some mandatoryParamError)
  | some ini =>
    if ini && !env.peerSigValid then
      (onFailed env .InvalidPeerSignature true s, none)
    else
      let s1 :=
        if !isSelfTx && isSender && ini then
          let ok := s.bag.peerID.isSome && s.bag.myID.isSome
                    && s.bag.kernelID.isSome && s.bag.amount.isSome
                    && s.bag.paymentConfirmation.isSome && env.paymentConfValid
          if !ok && 1 ≤ s.bag.peerProtoVersion.getD 0 then
            onFailed env .InvalidPeerSignature onFailedDefaultNotify s
          else s
        else s
      let s2 := finalizeSignature s1
      match s2.bag.transactionRegistered with
      | none =>
        let gate := !isSelfTx && (!hasPeersIo || ini)
        let s3 :=
          if gate && txState = .Invitation then
            setState .PeerConfirmation (confirmTransaction (updateTxDescription env .Registered s2))
          else s2
        if gate && !hasPeersIo then (s3, none)
        else if !env.txValid then (onFailed env .InvalidTransaction true s3, none)
        else (setState .Registration (s3.pushEvent .registerTx), none)
      | some isRegistered =>
        if !isRegistered then (onFailed env .FailedToRegister true s2, none)
        else
          let hProof := s2.bag.kernelProofHeight.getD 0
          if hProof = 0 then
            let s3 :=
              if txState = .Registration && s2.bag.peerProtoVersion.isNone then
                notifyTransactionRegistered s2
              else s2
            (confirmKernel env (setState .KernelConfirmation s3), none)
          else
            let flipped :=
              (getUnconfirmedOutputs env.txId s2.coins).map
                (confirmCoin hProof env.maturityStd)
            (completeTx env { s2 with coins := saveCoins flipped s2.coins }, none)

/-- `SimpleTransaction::UpdateImpl`. -/
def updateImpl (env : Env) (s0 : WState) : WState × Option TxError :=
  match s0.bag.isSender, s0.bag.peerID, s0.bag.fee,
        (match s0.bag.amountList with
         | some l => some l
         | none => s0.bag.amount.map (fun a => [a])) with
  | some isSender, some _, some fee, some amountList =>
    let isSelfTx := env.isSelfTx
    let txState := s0.bag.state.getD .Initial
    let b0 : TxBuilder :=
      { amountList := amountList, fee := fee,
        inputs := s0.bag.inputs.getD 0, outputs := s0.bag.outputs.getD 0,
        minHeight := s0.bag.minHeight.getD 0,
        maxHeight := s0.bag.maxHeight.getD maxHeightCap }
    let hasInitial := s0.bag.blindingExcess.isSome && s0.bag.offset.isSome
    match initialPhase env isSender isSelfTx txState hasInitial b0 s0 with
    | (_, s1, some e) => (s1, some e)
    | (_, s1, none) =>
      let s2 := createKernel (resolveMyAddressID env s1)
      if !isSelfTx
          && !(s2.bag.peerPublicExcess.isSome && s2.bag.peerPublicNonce.isSome) then
        (if txState = .Initial then setState .Invitation (sendInvitation env s2) else s2,
         none)
      else
        let s3 := signPartial s2
        let hasPeersIo := s3.bag.peerInputs.isSome
                          || (s3.bag.peerOutputs.isSome && s3.bag.peerOffset.isSome)
        if !isSelfTx && !s3.bag.peerSignature.isSome then
          if txState = .Initial then
            let s4 := confirmInvitation (updateTxDescription env .Registered s3)
            if s4.bag.peerProtoVersion.isSome then
              let s5 := { s4 with bag := { s4.bag with transactionRegistered := some true } }
              (confirmKernel env (setState .KernelConfirmation s5), none)
            else (setState .InvitationConfirmation s4, none)
          else
            match s3.bag.isInitiator with
            | none => (s3, some mandatoryParamError)
            | some ini =>
              if ini then (s3, none)
              else updateImplTail env isSender isSelfTx txState hasPeersIo s3
        else updateImplTail env isSender isSelfTx txState hasPeersIo s3
  | _, _, _, _ => (s0, some mandatoryParamError)

/-- The exception handlers of `BaseTransaction::Update`: a
`TransactionFailedException` routes to `OnFailed` with its reason and
notify flag; any other exception is only logged. -/
def handleExn (env : Env) (e : TxError) (s : WState) : WState :=
  match e with
  | .txFailed reason notify => onFailed env reason notify s
  | .other => s

/-- `BaseTransaction::Update`: run `CheckExternalFailures`, the virtual
`UpdateImpl` (passed as `impl`), then `CheckExpired`, with the two catch
clauses around the whole body. -/
def update (impl : WState → WState × Option TxError) (env : Env) (s : WState) : WState :=
  match checkExternalFailures env s with
  | (s1, _, some e) => handleExn env e s1
  | (s1, true, none) => s1
  | (_, false, none) =>
    match impl s with
    | (s2, some e) => handleExn env e s2
    | (s2, none) =>
      match checkExpired env s2 with
      | (s3, some e) => handleExn env e s3
      | (s3, none) => s3

/-- `Update()` of a `SimpleTransaction`. -/
def simpleUpdate (env : Env) (s : WState) : WState :=
  update (updateImpl env) env s

/-! ### Concrete scenarios used to witness the theorems below -/

/-- A parameter bag of a negotiation that has exchanged all peer parameters
and registered the transaction, still waiting for the kernel proof. -/
def registeredBag : ParamBag :=
  { status := some .InProgress, state := some .Registration,
    isSender := some false, isInitiator := some true,
    amount := some 10, fee := some 1, maxHeight := some 50,
    transactionRegistered := some true, peerProtoVersion := some 1,
    myID := some 8, peerID := some 9, myAddressID := some 5,
    offset := some (), blindingExcess := some (), myNonce := some (),
    kernelID := some (), peerPublicExcess := some (), peerPublicNonce := some (),
    peerSignature := some (), paymentConfirmation := some () }

/-- Environment for the expiry scenario: tip at height 51, past the
transaction's `MaxHeight` of 50. -/
def expireEnv : Env := { txId := 1, tip := some 51, now := 7 }

/-- Start state of the expiry scenario: one coin held `Outgoing` by the
transaction. -/
def expireStart : WState :=
  { bag := registeredBag,
    coins := [{ id := 1, value := 4, status := .Outgoing, spentTxId := some 1 }] }

/-- The state `UpdateImpl` produces in the expiry scenario: kernel
confirmation requested, status `Registered`. -/
def expireMid : WState :=
  { bag := { registeredBag with state := some .KernelConfirmation,
                                status := some .Registered, modifyTime := some 7 },
    coins := [{ id := 1, value := 4, status := .Outgoing, spentTxId := some 1 }],
    events := [.confirmKernel] }

/-- Environment for the completion scenario: kernel proof landed, standard
maturity window of 60 blocks. -/
def completeEnv : Env := { txId := 1, now := 7, maturityStd := 60 }

/-- Start state of the completion scenario: the sender holds one `Outgoing`
input and one `Incoming` output of the transaction, plus an unrelated
`Available` coin; the bag already carries the proof height 100. -/
def completeStart : WState :=
  { bag := { registeredBag with isSender := some true,
                                kernelProofHeight := some 100 },
    coins := [{ id := 1, value := 4, status := .Outgoing, spentTxId := some 1 },
              { id := 2, value := 10, status := .Incoming, createTxId := some 1 },
              { id := 3, value := 5, status := .Available }] }

end Beam.Wallet

namespace Beam

/-! ## Arithmetic facts about the `uint64_t` model -/

theorem add64_eq {a b : Nat} (h : a + b < M64) : add64 a b = a + b :=
  Nat.mod_eq_of_lt h

theorem sub64_eq {a b : Nat} (hba : b ≤ a) (ha : a < M64) : sub64 a b = a - b := by
  have hb : b % M64 = b := Nat.mod_eq_of_lt (lt_of_le_of_lt hba ha)
  have h1 : a + M64 - b % M64 = (a - b) + M64 := by rw [hb]; omega
  rw [sub64, h1, Nat.add_mod_right]
  exact Nat.mod_eq_of_lt (lt_of_le_of_lt (Nat.sub_le a b) ha)

theorem sum64_eq (l : List Nat) (h : l.sum < M64) : sum64 l = l.sum := by
  have general : ∀ (l : List Nat) (acc : Nat), acc + l.sum < M64 →
      l.foldl add64 acc = acc + l.sum := by
    intro l
    induction l with
    | nil => intro acc _; simp
    | cons a t ih =>
      intro acc hlt
      have hsum : acc + a + t.sum < M64 := by simp [List.sum_cons] at hlt; omega
      have hadd : add64 acc a = acc + a := add64_eq (by omega)
      simp only [List.foldl_cons, hadd, ih (acc + a) hsum, List.sum_cons]
      omega
  have := general l 0 (by omega)
  simpa [sum64] using this

end Beam

namespace Beam.Stratum

/-! ## Claims about the stratum server -/

/-- C9: `Server::on_solution` overwrites the most-recent result and invokes
the stored `onFound` callback for every `Solution` message it receives,
regardless of whether the solution's job id equals the current job's id —
including a solution arriving after `stop_current()` has cleared the active
job id. -/
theorem onSolution_always_fires (s : ServerState) (peer : Nat) (sol : Solution) :
    (onSolution s peer sol).recentResult =
      { id := sol.id, pow := fillPow sol, resultFrom := peer,
        onBlockFound := s.recentResult.onBlockFound } ∧
    (onSolution s peer sol).events
      = s.events ++ [.onFound s.recentResult.onBlockFound (fillPow sol)] ∧
    (stopCurrent s).recentJobId = "" ∧
    (onSolution (stopCurrent s) peer sol).recentResult =
      { id := sol.id, pow := fillPow sol, resultFrom := peer,
        onBlockFound := s.recentResult.onBlockFound } ∧
    (onSolution (stopCurrent s) peer sol).events
      = s.events ++ [.onFound s.recentResult.onBlockFound (fillPow sol)] := by
  simp [onSolution, stopCurrent, ServerState.pushEvent]

/-- C6 counterexample: a `Solution` from a connected peer that is still in the
`NotLoggedIn` state does mutate the server's most-recent result and does
invoke the `onFound` callback, contradicting the claim that every message
other than `Login` from a `NotLoggedIn` peer is ignored. -/
theorem notLoggedIn_solution_not_ignored :
    lookupConn { connections := [(7, false)], recentJobId := "J1",
                 recentResult := { onBlockFound := 5 } } 7 = some false ∧
    (connOnMessage { connections := [(7, false)], recentJobId := "J1",
                     recentResult := { onBlockFound := 5 } } 7
        (.solution { id := "J1", nonce := "ab", output := "cd" })).recentResult
      ≠ ({ onBlockFound := 5 } : RecentResult) ∧
    (connOnMessage { connections := [(7, false)], recentJobId := "J1",
                     recentResult := { onBlockFound := 5 } } 7
        (.solution { id := "J1", nonce := "ab", output := "cd" })).events
      = [.onFound 5 ⟨"ab", "cd"⟩] := by
  refine ⟨rfl, ?_, rfl⟩
  decide

/-- C6 amended: unknown or unsupported methods are ignored, but the connection
layer forwards a `Solution` to `Server::on_solution` without any logged-in
check: a `Solution` from a peer still in the `NotLoggedIn` state mutates the
most-recent result and invokes the `onFound` callback. -/
theorem notLoggedIn_solution_processed (s : ServerState) (peer : Nat) (sol : Solution)
    (_hnl : lookupConn s peer = some false) :
    connOnMessage s peer (.solution sol) = onSolution s peer sol ∧
    (connOnMessage s peer (.solution sol)).recentResult =
      { id := sol.id, pow := fillPow sol, resultFrom := peer,
        onBlockFound := s.recentResult.onBlockFound } ∧
    (connOnMessage s peer (.solution sol)).events
      = s.events ++ [.onFound s.recentResult.onBlockFound (fillPow sol)] ∧
    connOnMessage s peer .unsupported = s := by
  refine ⟨rfl, ?_, ?_, rfl⟩ <;>
    simp [connOnMessage, onSolution, ServerState.pushEvent]

/-- C6 amended, witnessed at a concrete not-logged-in peer. -/
theorem notLoggedIn_solution_processed_witness :
    connOnMessage { connections := [(7, false)], recentResult := { onBlockFound := 5 } } 7
        (.solution { id := "J1", nonce := "ab", output := "cd" })
      = onSolution { connections := [(7, false)], recentResult := { onBlockFound := 5 } } 7
          { id := "J1", nonce := "ab", output := "cd" } :=
  (notLoggedIn_solution_processed
    { connections := [(7, false)], recentResult := { onBlockFound := 5 } } 7
    { id := "J1", nonce := "ab", output := "cd" } (by decide)).1

/-- C5 counterexample: after a single `new_job`, two `Solution` messages for
that same job id each invoke the `onFound` callback, so the callback does
not run exactly once per job. -/
theorem onFound_twice_per_job :
    (((onSolution (onSolution
          (newJob { connections := [(2, true), (3, true)] } "J1" 1) 2
          { id := "J1", nonce := "aa", output := "bb" }) 3
          { id := "J1", nonce := "aa", output := "bb" }).events.filter
        isOnFound).length = 2) ∧
    ¬(((onSolution (onSolution
          (newJob { connections := [(2, true), (3, true)] } "J1" 1) 2
          { id := "J1", nonce := "aa", output := "bb" }) 3
          { id := "J1", nonce := "aa", output := "bb" }).events.filter
        isOnFound).length = 1) := by
  decide

/-- C5 amended: the server invokes `onFound` once per `Solution` message it
receives (so one job may see several invocations), and for every `Solution`
it forwards the `solution_result(jobID, accepted, blockID)` reply to the
peer that delivered the most recent solution, provided that peer is still
connected and logged in. -/
theorem solution_reply_to_origin (s : ServerState) (peer : Nat) (sol : Solution)
    (jobId blockHash : String) (accepted : Bool) (blockHeight : Nat)
    (hconn : lookupConn s peer = some true) :
    ((onSolution s peer sol).events.filter isOnFound).length
      = (s.events.filter isOnFound).length + 1 ∧
    (solutionResult (onSolution s peer sol) jobId accepted blockHash blockHeight).events
      = (onSolution s peer sol).events
        ++ [if accepted then .sendAccepted peer jobId blockHash blockHeight
            else .sendRejected peer jobId] := by
  constructor
  · simp [onSolution, ServerState.pushEvent, isOnFound]
  · have hdest : (onSolution s peer sol).recentResult.resultFrom = peer := rfl
    have hlk : lookupConn (onSolution s peer sol) peer = some true := by
      simpa [lookupConn, onSolution, ServerState.pushEvent] using hconn
    cases accepted <;>
      simp [solutionResult, hdest, hlk, ServerState.pushEvent]

/-- C5 amended, witnessed: one logged-in peer delivers a solution, the reply
goes back to it. -/
theorem solution_reply_to_origin_witness :
    (solutionResult (onSolution { connections := [(2, true)] } 2
        { id := "J1", nonce := "aa", output := "bb" }) "J1" true "hash" 10).events
      = (onSolution { connections := [(2, true)] } 2
          { id := "J1", nonce := "aa", output := "bb" }).events
        ++ [.sendAccepted 2 "J1" "hash" 10] := by
  have h := solution_reply_to_origin { connections := [(2, true)] } 2
    { id := "J1", nonce := "aa", output := "bb" } "J1" "hash" true 10 (by decide)
  simpa using h.2

/-- C7 counterexample: with an empty configured key-file path the ACL is
disabled and `check` accepts even a key of fewer than 8 characters, so the
clause "check(k) is false for every k of length less than 8" fails as an
unconditional statement. -/
theorem disabled_acl_accepts_short_key :
    (AccessControl.init "" none).check "short" = true ∧ "short".length < 8 := by
  exact ⟨rfl, by decide⟩

/-- C7 amended: for an enabled ACL, after an `mtime`-triggered refresh,
`check(k)` implies `k` appeared as a trimmed line of at least 8 characters
in the key file, and `check(k)` is false for every `k` shorter than 8
characters; when the configured path is empty the ACL is disabled and every
key is accepted. -/
theorem acl_check_sound (lines : List String) (t : Nat) (acl : AccessControl)
    (hEn : acl.enabled = true) (hT : acl.lastModified < t) :
    (∀ k, (AccessControl.refresh (some (t, lines)) acl).check k = true →
      ∃ l ∈ lines, trim l = k ∧ 8 ≤ k.length) ∧
    (∀ k, k.length < 8 → (AccessControl.refresh (some (t, lines)) acl).check k = false) ∧
    (∀ a : AccessControl, a.enabled = false → ∀ k, a.check k = true) := by
  have hkeys : (AccessControl.refresh (some (t, lines)) acl).keys
      = (lines.map trim).filter (fun l => 8 ≤ l.length) := by
    simp [AccessControl.refresh, hEn, Nat.not_le.mpr hT]
  have hen : (AccessControl.refresh (some (t, lines)) acl).enabled = true := by
    simp [AccessControl.refresh, hEn, Nat.not_le.mpr hT]
  refine ⟨?_, ?_, ?_⟩
  · intro k hk
    simp [AccessControl.check, hen, hkeys] at hk
    obtain ⟨⟨l, hl, hlk⟩, hlen⟩ := hk
    exact ⟨l, hl, hlk, hlen⟩
  · intro k hk
    simp only [AccessControl.check, hen, hkeys, Bool.not_true, Bool.false_eq_true,
      if_false, decide_eq_false_iff_not]
    intro hmem
    obtain ⟨_, hlen⟩ := List.mem_filter.1 hmem
    simp at hlen
    omega
  · intro a ha k
    simp [AccessControl.check, ha]

/-- C7 amended, witnessed on a concrete key file: a trimmed long key passes,
a short key fails. -/
theorem acl_check_sound_witness :
    (AccessControl.refresh (some (5, ["  goodkey123  ", "short"]))
        { enabled := true, lastModified := 0, keys := [] }).check "goodkey123" = true ∧
    (AccessControl.refresh (some (5, ["  goodkey123  ", "short"]))
        { enabled := true, lastModified := 0, keys := [] }).check "short" = false := by
  have h := acl_check_sound ["  goodkey123  ", "short"] 5
    { enabled := true, lastModified := 0, keys := [] } rfl (by decide)
  exact ⟨by decide, h.2.1 "short" (by decide)⟩

end Beam.Stratum

namespace Beam.Wallet

/-! ## Persistence lemmas -/

theorem mem_saveCoin_self {c : Coin} {db : List Coin}
    (h : c.id ∈ db.map Coin.id) : c ∈ saveCoin c db := by
  obtain ⟨d, hd, hid⟩ := List.mem_map.1 h
  exact List.mem_map.2 ⟨d, hd, by simp [hid]⟩

theorem mem_saveCoin_of_ne {c d : Coin} {db : List Coin}
    (hd : d ∈ db) (hne : d.id ≠ c.id) : d ∈ saveCoin c db :=
  List.mem_map.2 ⟨d, hd, by simp [hne]⟩

theorem map_id_saveCoin (c : Coin) (db : List Coin) :
    (saveCoin c db).map Coin.id = db.map Coin.id := by
  induction db with
  | nil => rfl
  | cons d t ih =>
    simp only [saveCoin, List.map_cons] at ih ⊢
    by_cases h : d.id = c.id <;> simp [h, ih]

theorem mem_saveCoins_of_not_mem {cs : List Coin} {db : List Coin} {c : Coin}
    (hc : c ∈ db) (h : c.id ∉ cs.map Coin.id) : c ∈ saveCoins cs db := by
  induction cs generalizing db with
  | nil => simpa [saveCoins] using hc
  | cons a t ih =>
    simp only [List.map_cons, List.mem_cons, not_or] at h
    exact ih (mem_saveCoin_of_ne hc h.1) h.2

theorem mem_saveCoins {cs db : List Coin} {c : Coin}
    (hnd : (cs.map Coin.id).Nodup) (hc : c ∈ cs) (hid : c.id ∈ db.map Coin.id) :
    c ∈ saveCoins cs db := by
  induction cs generalizing db with
  | nil => cases hc
  | cons a t ih =>
    simp only [List.map_cons, List.nodup_cons] at hnd
    rcases List.mem_cons.1 hc with rfl | hct
    · show c ∈ saveCoins t (saveCoin c db)
      exact mem_saveCoins_of_not_mem (mem_saveCoin_self hid) hnd.1
    · show c ∈ saveCoins t (saveCoin a db)
      exact ih hnd.2 hct (by rw [map_id_saveCoin]; exact hid)

/-! ## Claims about the transaction engine -/

/-- C2: `TxBuilder::SelectInputs` for amount `A` (the sum of the amount list)
and fee `F`: an empty store selection fails with `NoInputs` and mutates no
coin; otherwise every selected coin gets `spentTxId` set to this
transaction's id and is persisted, and the recorded change is the selected
total minus `A + F`. -/
theorem selectInputs_contract (env : Env) (al : List Nat) (fee : Nat) (s : WState)
    (ini : Bool) (hini : s.bag.isInitiator = some ini) :
    (env.selectedCoins = [] →
      selectInputs env { amountList := al, fee := fee } s
        = ({ amountList := al, fee := fee }, s, some (.txFailed .NoInputs (!ini)))) ∧
    (env.selectedCoins ≠ [] →
      (selectInputs env { amountList := al, fee := fee } s).2.2 = none ∧
      (selectInputs env { amountList := al, fee := fee } s).2.1.coins
        = saveCoins (env.selectedCoins.map (fun c => { c with spentTxId := some env.txId }))
            s.coins ∧
      (∀ c ∈ env.selectedCoins.map (fun c => { c with spentTxId := some env.txId }),
        c.spentTxId = some env.txId) ∧
      ((env.selectedCoins.map Coin.id).Nodup →
        ∀ c ∈ env.selectedCoins, c.id ∈ s.coins.map Coin.id →
          { c with spentTxId := some env.txId }
            ∈ (selectInputs env { amountList := al, fee := fee } s).2.1.coins) ∧
      ((env.selectedCoins.map Coin.value).sum < M64 →
        al.sum + fee ≤ (env.selectedCoins.map Coin.value).sum →
        (selectInputs env { amountList := al, fee := fee } s).1.change
          = (env.selectedCoins.map Coin.value).sum - (al.sum + fee) ∧
        (selectInputs env { amountList := al, fee := fee } s).2.1.bag.change
          = some ((env.selectedCoins.map Coin.value).sum - (al.sum + fee)))) := by
  constructor
  · intro he
    simp [selectInputs, he, hini]
  · intro hne
    have hempty : env.selectedCoins.isEmpty = false := by
      simpa [List.isEmpty_iff] using hne
    have hvals : (env.selectedCoins.map
          (fun c => { c with spentTxId := some env.txId })).map Coin.value
        = env.selectedCoins.map Coin.value := by
      rw [List.map_map]; rfl
    refine ⟨?_, ?_, ?_, ?_, ?_⟩
    · simp [selectInputs, hempty]
    · simp [selectInputs, hempty]
    · intro c hc
      obtain ⟨d, _, rfl⟩ := List.mem_map.1 hc
      rfl
    · intro hnd c hc hid
      have hres : (selectInputs env { amountList := al, fee := fee } s).2.1.coins
          = saveCoins (env.selectedCoins.map
              (fun c => { c with spentTxId := some env.txId })) s.coins := by
        simp [selectInputs, hempty]
      rw [hres]
      have hnd2 : ((env.selectedCoins.map
            (fun c => { c with spentTxId := some env.txId })).map Coin.id).Nodup := by
        rw [List.map_map]
        exact hnd
      exact mem_saveCoins hnd2 (List.mem_map.2 ⟨c, hc, rfl⟩) hid
    · intro hlt hle
      have hA : al.sum < M64 := by omega
      have hAF : al.sum + fee < M64 := by omega
      have hamt : TxBuilder.getAmount { amountList := al, fee := fee } = al.sum := by
        simpa [TxBuilder.getAmount] using sum64_eq al hA
      have htot : sum64 ((env.selectedCoins.map
            (fun c => { c with spentTxId := some env.txId })).map Coin.value)
          = (env.selectedCoins.map Coin.value).sum := by
        rw [hvals]
        exact sum64_eq _ hlt
      have hx : (env.selectedCoins.map Coin.value).sum - (al.sum + fee) < M64 := by
        omega
      have hchange : add64 0 (sub64 ((env.selectedCoins.map Coin.value).sum)
            (add64 al.sum fee))
          = (env.selectedCoins.map Coin.value).sum - (al.sum + fee) := by
        rw [add64_eq hAF, sub64_eq hle hlt]
        simp [add64, Nat.mod_eq_of_lt hx]
      constructor
      · simp only [selectInputs, hempty, Bool.false_eq_true, if_false, hamt, htot]
        exact hchange
      · simp only [selectInputs, hempty, Bool.false_eq_true, if_false, hamt, htot]
        rw [hchange]

/-- C2, witnessed: an empty selection for amount 10 and fee 1 fails with
`NoInputs` leaving the state untouched; a selection of values 4 and 7
yields change 0 and both coins marked spent. -/
theorem selectInputs_contract_witness :
    (selectInputs { selectedCoins := [] } { amountList := [10], fee := 1 }
        { bag := { isInitiator := some true } }).2.2
      = some (.txFailed .NoInputs false) ∧
    (selectInputs
        { txId := 42,
          selectedCoins := [{ id := 1, value := 4, status := .Available },
                            { id := 2, value := 7, status := .Available }] }
        { amountList := [10], fee := 1 }
        { bag := { isInitiator := some true },
          coins := [{ id := 1, value := 4, status := .Available },
                    { id := 2, value := 7, status := .Available }] }).1.change = 0 := by
  have h1 := (selectInputs_contract { selectedCoins := [] } [10] 1
    { bag := { isInitiator := some true } } true rfl).1 rfl
  have h2 := ((selectInputs_contract
    { txId := 42,
      selectedCoins := [{ id := 1, value := 4, status := .Available },
                        { id := 2, value := 7, status := .Available }] }
    [10] 1
    { bag := { isInitiator := some true },
      coins := [{ id := 1, value := 4, status := .Available },
                { id := 2, value := 7, status := .Available }] }
    true rfl).2 (by decide)).2.2.2.2 (by decide) (by decide)
  refine ⟨?_, ?_⟩
  · rw [h1]; rfl
  · rw [h2.1]; decide

/-- C10: an outbound `FailureReason` message is only produced while the
persisted status is `Pending` or `InProgress`: with any other status,
`NotifyFailure` sends nothing (so `OnFailed` with notification requested
and `Cancel` both emit only the rollback and completion effects). -/
theorem notifyFailure_only_while_active (env : Env) (reason : TxFailureReason)
    (s : WState) (st : TxStatus) (hst : s.bag.status = some st)
    (hp : st ≠ .Pending) (hi : st ≠ .InProgress) :
    notifyFailure reason s = s ∧
    (onFailed env reason true s).events = s.events ++ [.rollbackTx, .onTxCompleted] ∧
    (cancel env s).events = s.events ++ [.rollbackTx, .onTxCompleted] := by
  have hnf : notifyFailure reason s = s := by
    cases st <;> simp_all [notifyFailure]
  have hnfc : notifyFailure .Cancelled s = s := by
    cases st <;> simp_all [notifyFailure]
  refine ⟨hnf, ?_, ?_⟩
  · simp [onFailed, hnf, updateTxDescription, rollbackTx, WState.pushEvent]
  · have : s.bag.status.getD .Failed = st := by rw [hst]; rfl
    cases st <;> simp_all [cancel, updateTxDescription, rollbackTx, WState.pushEvent]

/-- C10, witnessed with status `Registered`. -/
theorem notifyFailure_only_while_active_witness :
    notifyFailure .Unknown { bag := { status := some .Registered } } =
      { bag := { status := some .Registered } } ∧
    (onFailed {} .Unknown true { bag := { status := some .Registered } }).events
      = [.rollbackTx, .onTxCompleted] := by
  have h := notifyFailure_only_while_active {} .Unknown
    { bag := { status := some .Registered } } .Registered rfl
    (by decide) (by decide)
  exact ⟨h.1, by rw [h.2.1]; rfl⟩

/-- C4: when the bag holds a `FailureReason` and the persisted status is
`InProgress`, the next `Update()` fails locally with that reason — status
updated, coins rolled back, completion signalled — and sends no outbound
`FailureReason` message. -/
theorem externalFailure_consumed (impl : WState → WState × Option TxError)
    (env : Env) (s : WState) (r : TxFailureReason)
    (hr : s.bag.failureReason = some r) (hst : s.bag.status = some .InProgress) :
    update impl env s = onFailed env r false s ∧
    (update impl env s).bag.status
      = some (if r = .Cancelled then .Cancelled else .Failed) ∧
    (update impl env s).coins = rollbackCoins env.txId s.coins ∧
    (update impl env s).events = s.events ++ [.rollbackTx, .onTxCompleted] := by
  have hu : update impl env s = onFailed env r false s := by
    simp [update, checkExternalFailures, hr, hst, onFailedDefaultNotify]
  refine ⟨hu, ?_, ?_, ?_⟩ <;>
    simp [hu, onFailed, updateTxDescription, rollbackTx, WState.pushEvent]

/-- C4, witnessed: a peer-set `Unknown` failure reason on an `InProgress`
transaction is consumed without any outbound message. -/
theorem externalFailure_consumed_witness :
    update (fun st => (st, none)) {}
        { bag := { failureReason := some .Unknown, status := some .InProgress } }
      = onFailed {} .Unknown false
          { bag := { failureReason := some .Unknown, status := some .InProgress } } ∧
    (update (fun st => (st, none)) {}
        { bag := { failureReason := some .Unknown, status := some .InProgress } }).events
      = [.rollbackTx, .onTxCompleted] := by
  have h := externalFailure_consumed (fun st => (st, none)) {}
    { bag := { failureReason := some .Unknown, status := some .InProgress } }
    .Unknown rfl rfl
  exact ⟨h.1, by rw [h.2.2.2]; rfl⟩

/-- C8: an exception from `UpdateImpl` other than `TransactionFailedException`
leaves `Update()` with exactly the state the throwing step produced — no
`OnFailed`, no rollback, no peer notification — while a
`TransactionFailedException` routes to `OnFailed` with its reason and
notify flag. -/
theorem update_exception_routing (impl : WState → WState × Option TxError)
    (env : Env) (s s2 : WState) (hf : s.bag.failureReason = none) :
    (impl s = (s2, some .other) → update impl env s = s2) ∧
    (∀ reason notify, impl s = (s2, some (.txFailed reason notify)) →
      update impl env s = onFailed env reason notify s2) := by
  constructor
  · intro h
    simp [update, checkExternalFailures, hf, h, handleExn]
  · intro reason notify h
    simp [update, checkExternalFailures, hf, h, handleExn]

/-- C8, witnessed with a body throwing a generic exception and one throwing a
`TransactionFailedException`. -/
theorem update_exception_routing_witness :
    update (fun st => ({ st with nextKid := 9 }, some .other)) {} {}
      = { nextKid := 9 } ∧
    update (fun st => (st, some (.txFailed .InvalidTransaction true))) {} {}
      = onFailed {} .InvalidTransaction true {} := by
  constructor
  · exact (update_exception_routing (fun st => ({ st with nextKid := 9 }, some .other))
      {} {} { nextKid := 9 } rfl).1 rfl
  · exact (update_exception_routing (fun st => (st, some (.txFailed .InvalidTransaction true)))
      {} {} {} rfl).2 .InvalidTransaction true rfl

/-- C3: on an `Update()` whose body completes with the persisted status not
`Completed` while the chain tip exceeds the `MaxHeight` parameter, the
transaction fails with `TransactionExpired`: status set to `Failed`, coin
state rolled back, gateway notified of completion. -/
theorem update_expires (env : Env) (s s1 : WState) (st : TxStatus) (h : Nat)
    (hf : s.bag.failureReason = none)
    (himpl : updateImpl env s = (s1, none))
    (hst : s1.bag.status = some st)
    (hc : st ≠ .Completed)
    (htip : env.tip = some h)
    (hmax : s1.bag.maxHeight.getD maxHeightCap < h) :
    simpleUpdate env s = onFailed env .TransactionExpired false s1 ∧
    (simpleUpdate env s).bag.status = some .Failed ∧
    (simpleUpdate env s).coins = rollbackCoins env.txId s1.coins ∧
    (simpleUpdate env s).events = s1.events ++ [.rollbackTx, .onTxCompleted] := by
  have hexp : checkExpired env s1 = (onFailed env .TransactionExpired false s1, none) := by
    simp [checkExpired, hst, hc, htip, hmax, onFailedDefaultNotify]
  have hrun : simpleUpdate env s = onFailed env .TransactionExpired false s1 := by
    simp [simpleUpdate, update, checkExternalFailures, hf, himpl, hexp]
  refine ⟨hrun, ?_, ?_, ?_⟩ <;>
    simp [hrun, onFailed, updateTxDescription, rollbackTx, WState.pushEvent]

/-- C3, witnessed by the registration-in-flight scenario with `MaxHeight` 50
and the tip at 51. -/
theorem update_expires_witness :
    (simpleUpdate expireEnv expireStart).bag.status = some .Failed ∧
    (simpleUpdate expireEnv expireStart).events
      = [.confirmKernel, .rollbackTx, .onTxCompleted] ∧
    (simpleUpdate expireEnv expireStart).coins
      = [{ id := 1, value := 4, status := .Available }] := by
  have h := update_expires expireEnv expireStart expireMid .Registered 51
    rfl (by decide) rfl (by decide) rfl (by decide)
  refine ⟨h.2.1, ?_, ?_⟩
  · rw [h.2.2.2]; rfl
  · rw [h.2.2.1]; rfl

/-- C1: when the bag holds `KernelProofHeight > 0` (with the negotiation
parameters of a registered transaction in place), `Update()` flips each
unconfirmed coin of the transaction — `Outgoing` to `Spent`, `Incoming` to
`Available` with `confirmHeight` the proof height and `maturity` the proof
height plus the standard maturity window — persists them, sets the status
to `Completed` and notifies the gateway via `on_tx_completed`. -/
theorem update_completes (env : Env) (s : WState) (sdr ini : Bool)
    (pid mid a f aid h : Nat)
    (hfr : s.bag.failureReason = none)
    (hsn : s.bag.isSender = some sdr)
    (hini : s.bag.isInitiator = some ini)
    (hpid : s.bag.peerID = some pid)
    (hmid : s.bag.myID = some mid)
    (hal : s.bag.amountList = none)
    (hamt : s.bag.amount = some a)
    (hfee : s.bag.fee = some f)
    (hbl : s.bag.blindingExcess = some ())
    (hof : s.bag.offset = some ())
    (hnn : s.bag.myNonce = some ())
    (hmaid : s.bag.myAddressID = some aid)
    (hself : env.isSelfTx = false)
    (hppe : s.bag.peerPublicExcess = some ())
    (hppn : s.bag.peerPublicNonce = some ())
    (hps : s.bag.peerSignature = some ())
    (hsv : env.peerSigValid = true)
    (hpc : s.bag.paymentConfirmation = some ())
    (hpcv : env.paymentConfValid = true)
    (hreg : s.bag.transactionRegistered = some true)
    (hk : s.bag.kernelID = some ())
    (hpr : s.bag.kernelProofHeight = some h)
    (hh : h ≠ 0)
    (hm : h + env.maturityStd < M64) :
    simpleUpdate env s =
      { s with
        bag := { s.bag with status := some .Completed, modifyTime := some env.now },
        coins := saveCoins ((getUnconfirmedOutputs env.txId s.coins).map
                    (confirmCoin h env.maturityStd)) s.coins,
        events := s.events ++ [.onTxCompleted] } ∧
    (∀ c ∈ getUnconfirmedOutputs env.txId s.coins,
      (c.status = .Outgoing →
        confirmCoin h env.maturityStd c = { c with status := .Spent }) ∧
      (c.status = .Incoming →
        confirmCoin h env.maturityStd c =
          { c with status := .Available, confirmHeight := h,
                   maturity := h + env.maturityStd })) := by
  constructor
  · have himpl : updateImpl env s =
        ({ s with
           bag := { s.bag with status := some .Completed, modifyTime := some env.now },
           coins := saveCoins ((getUnconfirmedOutputs env.txId s.coins).map
                       (confirmCoin h env.maturityStd)) s.coins,
           events := s.events ++ [.onTxCompleted] }, none) := by
      simp [updateImpl, hsn, hpid, hmid, hfee, hal, hamt, hbl, hof, hnn, hmaid,
        hself, hppe, hppn, hps, hsv, hpc, hpcv, hreg, hk, hpr, hini, hh,
        initialPhase, resolveMyAddressID, createKernel, signPartial,
        updateImplTail, finalizeSignature, completeTx, updateTxDescription,
        WState.pushEvent]
    simp [simpleUpdate, update, checkExternalFailures, hfr, himpl, checkExpired]
  · intro c _
    constructor
    · intro hcs
      simp [confirmCoin, hcs]
    · intro hcs
      simp [confirmCoin, hcs, add64_eq hm]

/-- C1, witnessed: proof height 100 and maturity window 60 promote the
`Outgoing` input to `Spent` and the `Incoming` output to `Available` with
confirmation height 100 and maturity 160, leaving unrelated coins alone. -/
theorem update_completes_witness :
    (simpleUpdate completeEnv completeStart).bag.status = some .Completed ∧
    (simpleUpdate completeEnv completeStart).coins
      = [{ id := 1, value := 4, status := .Spent, spentTxId := some 1 },
         { id := 2, value := 10, status := .Available, confirmHeight := 100,
           maturity := 160, createTxId := some 1 },
         { id := 3, value := 5, status := .Available }] ∧
    (simpleUpdate completeEnv completeStart).events = [.onTxCompleted] := by
  have h := update_completes completeEnv completeStart true true 9 8 10 1 5 100
    rfl rfl rfl rfl rfl rfl rfl rfl rfl rfl rfl rfl rfl rfl rfl rfl rfl rfl rfl
    rfl rfl rfl (by decide) (by decide)
  refine ⟨?_, ?_, ?_⟩ <;> rw [h.1] <;> rfl

end Beam.Wallet
